import Mathlib

/-!
Shallow embedding of `FinalSignalDist.cpp`: an exhaustive minimum-cost
search over four catalogs of RF components (amplifiers, switches,
attenuators, power dividers), gated by nine feasibility predicates.

C++ `double` values are modeled by `D := Option ℚ`: `some q` is a finite
value and `none` models IEEE-754 NaN.  The program only adds and compares
its catalog numbers, so finite arithmetic is exact; every operation below
propagates NaN and every comparison involving NaN is false, exactly as in
IEEE-754.
-/

namespace SignalDist

/-- A C++ `double`: `none` is NaN, `some q` is a finite value. -/
abbrev D := Option ℚ

/-- Exact rational addition written through `mkRat` so that the kernel
can evaluate it (`Rat.add` itself is `@[irreducible]`); by
`Rat.add_def'` it is the very same function as `+`. -/
def qadd (a b : ℚ) : ℚ := mkRat (a.num * b.den + b.num * a.den) (a.den * b.den)

/-- IEEE `+`: NaN propagates. -/
def dadd : D → D → D
  | some a, some b => some (qadd a b)
  | _, _ => none

/-- IEEE unary `-`: NaN propagates. -/
def dneg : D → D
  | some a => some (-a)
  | none => none

/-- IEEE `<=`: false when either operand is NaN. -/
def dle : D → D → Bool
  | some a, some b => decide (a ≤ b)
  | _, _ => false

/-- IEEE `<`: false when either operand is NaN. -/
def dlt : D → D → Bool
  | some a, some b => decide (a < b)
  | _, _ => false

/-- IEEE `>=`: `x >= y` holds iff `y <= x`, both non-NaN. -/
def dge (x y : D) : Bool := dle y x

/-- The rational value of `numeric_limits<double>::max()`, the largest
finite IEEE-754 double, `(2 - 2^-52) * 2^1023 = 2^1024 - 2^971`, written
as an explicit integer numeral. -/
def maxDoubleQ : ℚ := 179769313486231570814527423731704356798070567525844996598917476803157260780028538760589558632766878171540458953514382464234321326889464182768467546703537516986049910576551282076245490090389328944075868508455133942304583236903222948165808559332123348274797826204144723168738177180919299881250404026184124858368

/-- `numeric_limits<double>::max()` as a `D` value. -/
def maxDouble : D := some maxDoubleQ

/-- `class Amplifier` (`FinalSignalDist.cpp`, lines 24-42). -/
structure Amplifier where
  name : String
  gain_min_1GHz : D
  gain_max_1GHz : D
  gain_min_20GHz : D
  gain_max_20GHz : D
  P1dB_1GHz : D
  P1dB_20GHz : D
  cost : D
  deriving DecidableEq

/-- `class Switch` (lines 45-62). -/
structure Switch where
  name : String
  gain_1GHz_typ : D
  gain_20GHz_typ : D
  leakage_1GHz : D
  leakage_20GHz : D
  P1dB_input : D
  cost : D
  deriving DecidableEq

/-- `class Attenuator` (lines 65-79). -/
structure Attenuator where
  name : String
  gain : D
  max_attenuation : D
  P1dB_input : D
  cost : D
  deriving DecidableEq

/-- `class PowerDivider` (lines 82-95). -/
structure PowerDivider where
  name : String
  gain_1GHz : D
  gain_20GHz : D
  cost : D
  deriving DecidableEq

/-- The C++ `Attenuator` constructor always sets `cost = 0.0` (line 74). -/
def mkAttenuator (n : String) (g maxAtt p1dB : D) : Attenuator :=
  ⟨n, g, maxAtt, p1dB, some 0⟩

/-- The C++ `PowerDivider` constructor always sets `cost = 0.0` (line 90). -/
def mkPowerDivider (n : String) (g1 g20 : D) : PowerDivider :=
  ⟨n, g1, g20, some 0⟩

/-- `double input_power_dBm = 0;` (line 108). -/
def input_power_dBm : D := some 0

/-- Line 118: `amp.gain_max_1GHz + att.gain + div.gain_1GHz`. -/
def effective_gain_max_1GHz (amp : Amplifier) (att : Attenuator) (dv : PowerDivider) : D :=
  dadd (dadd amp.gain_max_1GHz att.gain) dv.gain_1GHz

/-- Line 119: `amp.gain_max_20GHz + att.gain + div.gain_20GHz`. -/
def effective_gain_max_20GHz (amp : Amplifier) (att : Attenuator) (dv : PowerDivider) : D :=
  dadd (dadd amp.gain_max_20GHz att.gain) dv.gain_20GHz

/-- Line 121: `amp.gain_min_1GHz + att.gain + div.gain_1GHz`. -/
def effective_gain_min_1GHz (amp : Amplifier) (att : Attenuator) (dv : PowerDivider) : D :=
  dadd (dadd amp.gain_min_1GHz att.gain) dv.gain_1GHz

/-- Lines 122-123: `amp.gain_min_20GHz + att.gain + div.gain_20GHz`. -/
def effective_gain_min_20GHz (amp : Amplifier) (att : Attenuator) (dv : PowerDivider) : D :=
  dadd (dadd amp.gain_min_20GHz att.gain) dv.gain_20GHz

/-- Line 126: `input_power_dBm + effective_gain_max_1GHz`. -/
def max_output_power_1GHz (amp : Amplifier) (att : Attenuator) (dv : PowerDivider) : D :=
  dadd input_power_dBm (effective_gain_max_1GHz amp att dv)

/-- Line 127: `input_power_dBm + effective_gain_max_20GHz`. -/
def max_output_power_20GHz (amp : Amplifier) (att : Attenuator) (dv : PowerDivider) : D :=
  dadd input_power_dBm (effective_gain_max_20GHz amp att dv)

/-- Line 130: `input_power_dBm + effective_gain_min_1GHz`.
Computed by the source but never read by the feasibility gate. -/
def min_output_power_1GHz (amp : Amplifier) (att : Attenuator) (dv : PowerDivider) : D :=
  dadd input_power_dBm (effective_gain_min_1GHz amp att dv)

/-- Line 131: `input_power_dBm + effective_gain_min_20GHz`.
Computed by the source but never read by the feasibility gate. -/
def min_output_power_20GHz (amp : Amplifier) (att : Attenuator) (dv : PowerDivider) : D :=
  dadd input_power_dBm (effective_gain_min_20GHz amp att dv)

/-- The ON-state check of lines 134-136 (six conjuncts). -/
def onStateOk (amp : Amplifier) (sw : Switch) (att : Attenuator) (dv : PowerDivider) : Bool :=
  dle (max_output_power_1GHz amp att dv) amp.P1dB_1GHz &&
  dle (max_output_power_20GHz amp att dv) amp.P1dB_20GHz &&
  dge sw.gain_1GHz_typ (some (-1)) &&
  dge sw.gain_20GHz_typ (some (-2)) &&
  dge amp.P1dB_1GHz (some 12) &&
  dge amp.P1dB_20GHz (some (mkRat 21 2))

/-- The OFF-state check of line 139 (two conjuncts). -/
def offStateOk (sw : Switch) : Bool :=
  dlt sw.leakage_1GHz (some (-55)) && dlt sw.leakage_20GHz (some (-20))

/-- The attenuator range check of line 142: `-att.gain <= att.max_attenuation`. -/
def attenuatorOk (att : Attenuator) : Bool :=
  dle (dneg att.gain) att.max_attenuation

/-- The full feasibility gate: the three nested `if`s of lines 134-142. -/
def feasible (amp : Amplifier) (sw : Switch) (att : Attenuator) (dv : PowerDivider) : Bool :=
  onStateOk amp sw att dv && offStateOk sw && attenuatorOk att

/-- Line 115: `amp.getCost() + sw.getCost() + att.getCost() + div.getCost()`. -/
def totalCost (amp : Amplifier) (sw : Switch) (att : Attenuator) (dv : PowerDivider) : D :=
  dadd (dadd (dadd amp.cost sw.cost) att.cost) dv.cost

/-- One candidate of the Cartesian product. -/
abbrev Tuple := Amplifier × Switch × Attenuator × PowerDivider

/-- Feasibility of a candidate tuple. -/
def feasibleT : Tuple → Bool
  | (a, s, t, d) => feasible a s t d

/-- Total cost of a candidate tuple. -/
def totalCostT : Tuple → D
  | (a, s, t, d) => totalCost a s t d

/-- The mutable selector state of `printBestConfiguration`: `min_cost`
(line 104) and the best-so-far combination (line 105).  The C++ stores
the best combination as a rendered string of the four component names;
the embedding stores the tuple itself and renders at report time, which
carries exactly the same information. -/
structure SelState where
  min_cost : D
  best : Option Tuple
  deriving DecidableEq

/-- The body of the innermost loop (lines 115-151): if the tuple is
feasible and `total_cost < min_cost`, it becomes the new best. -/
def step (s : SelState) (t : Tuple) : SelState :=
  if feasibleT t && dlt (totalCostT t) s.min_cost then
    { min_cost := totalCostT t, best := some t }
  else s

/-- Innermost loop (line 114): one pass over the dividers. -/
def innerD (a : Amplifier) (s : Switch) (t : Attenuator) : List PowerDivider → List Tuple
  | [] => []
  | dv :: rest => (a, s, t, dv) :: innerD a s t rest

/-- Third loop (line 113): one pass over the attenuators. -/
def innerT (a : Amplifier) (s : Switch) : List Attenuator → List PowerDivider → List Tuple
  | [], _ => []
  | t :: rest, dvs => innerD a s t dvs ++ innerT a s rest dvs

/-- Second loop (line 112): one pass over the switches. -/
def innerS (a : Amplifier) : List Switch → List Attenuator → List PowerDivider → List Tuple
  | [], _, _ => []
  | s :: rest, atts, dvs => innerT a s atts dvs ++ innerS a rest atts dvs

/-- The full Cartesian product in the enumeration order of the nested
loops of lines 111-114: amplifier outermost, then switch, then
attenuator, then power divider innermost. -/
def allTuples : List Amplifier → List Switch → List Attenuator → List PowerDivider → List Tuple
  | [], _, _, _ => []
  | a :: rest, sws, atts, dvs => innerS a sws atts dvs ++ allTuples rest sws atts dvs

/-- The selector: fold the loop body over the whole product, starting
from `min_cost = numeric_limits<double>::max()` and no best combination. -/
def runSelector (amps : List Amplifier) (sws : List Switch) (atts : List Attenuator)
    (dvs : List PowerDivider) : SelState :=
  (allTuples amps sws atts dvs).foldl step ⟨maxDouble, none⟩

/-- The observable output of `printBestConfiguration` (lines 158-163):
either the best-configuration line, carrying the four component names and
the total cost, or the fixed
"No valid configuration found that meets the specifications." message. -/
inductive Report where
  | best (ampName swName attName dvName : String) (cost : D)
  | noValid
  deriving DecidableEq

/-- Render the final selector state (lines 158-163): the message is
printed exactly when `best_combination` is still empty, i.e. when no
tuple was ever selected. -/
def reportOf (s : SelState) : Report :=
  match s.best with
  | some (a, sw, att, dv) => Report.best a.name sw.name att.name dv.name s.min_cost
  | none => Report.noValid

/-- `ConfigurationFinder::printBestConfiguration` (lines 100-164), as the
function from the four catalogs to the observable output. -/
def printBestConfiguration (amps : List Amplifier) (sws : List Switch)
    (atts : List Attenuator) (dvs : List PowerDivider) : Report :=
  reportOf (runSelector amps sws atts dvs)

/-- `{"Amp-A", 19.0, 15.0, 18.0, 14.0, 12.0, 10.5, 100.0}` (line 170). -/
def ampA : Amplifier :=
  ⟨"Amp-A", some 19, some 15, some 18, some 14, some 12, some (mkRat 21 2), some 100⟩

/-- `{"Amp-B", 18.0, 14.0, 17.0, 13.0, 11.0, 9.5, 120.0}` (line 171). -/
def ampB : Amplifier :=
  ⟨"Amp-B", some 18, some 14, some 17, some 13, some 11, some (mkRat 19 2), some 120⟩

/-- `{"Switch-1", 0.5, 0.4, -60.0, -25.0, 15.0, 50.0}` (line 175). -/
def switch1 : Switch :=
  ⟨"Switch-1", some (mkRat 1 2), some (mkRat 2 5), some (-60), some (-25), some 15, some 50⟩

/-- `{"Switch-2", 0.6, 0.5, -58.0, -22.0, 14.0, 60.0}` (line 176). -/
def switch2 : Switch :=
  ⟨"Switch-2", some (mkRat 3 5), some (mkRat 1 2), some (-58), some (-22), some 14, some 60⟩

/-- `{"Attenuator-1", -3.0, 10.0, 20.0}` (line 180). -/
def attenuator1 : Attenuator := mkAttenuator "Attenuator-1" (some (-3)) (some 10) (some 20)

/-- `{"Attenuator-2", -6.0, 15.0, 20.0}` (line 181). -/
def attenuator2 : Attenuator := mkAttenuator "Attenuator-2" (some (-6)) (some 15) (some 20)

/-- `{"Divider-1", 0.0, 0.0}` (line 185). -/
def divider1 : PowerDivider := mkPowerDivider "Divider-1" (some 0) (some 0)

/-- `{"Divider-2", 0.0, 0.0}` (line 186). -/
def divider2 : PowerDivider := mkPowerDivider "Divider-2" (some 0) (some 0)

/-- The amplifier catalog hardcoded in `main` (lines 169-172). -/
def refAmplifiers : List Amplifier := [ampA, ampB]

/-- The switch catalog hardcoded in `main` (lines 174-177). -/
def refSwitches : List Switch := [switch1, switch2]

/-- The attenuator catalog hardcoded in `main` (lines 179-182). -/
def refAttenuators : List Attenuator := [attenuator1, attenuator2]

/-- The divider catalog hardcoded in `main` (lines 184-187). -/
def refDividers : List PowerDivider := [divider1, divider2]

/-! Basic facts about the double model. -/

/-- `qadd` is ordinary rational addition (Batteries' `Rat.add_def'`). -/
theorem qadd_eq_add (a b : ℚ) : qadd a b = a + b := (Rat.add_def' a b).symm

/-- `dadd` on finite values is exact rational addition. -/
theorem dadd_some (a b : ℚ) : dadd (some a) (some b) = some (a + b) := by
  show some (qadd a b) = some (a + b)
  rw [qadd_eq_add]

theorem dlt_some_some (c m : ℚ) : dlt (some c) (some m) = decide (c < m) := rfl

theorem dle_some_some (c m : ℚ) : dle (some c) (some m) = decide (c ≤ m) := rfl

theorem dlt_none_left (y : D) : dlt none y = false := rfl

theorem dle_none_left (y : D) : dle none y = false := rfl

/-- `dlt x (some m)` holds exactly for finite values below `m`. -/
theorem dlt_some_iff (x : D) (m : ℚ) : dlt x (some m) = true ↔ ∃ c, x = some c ∧ c < m := by
  cases x with
  | none => simp [dlt]
  | some c => simp [dlt]

theorem dlt_false_of_le' {c mf : ℚ} (h : mf ≤ c) : dlt (some c) (some mf) = false := by
  simp [dlt, not_lt, h]

theorem dle_false_of_lt' {c mf : ℚ} (h : mf < c) : dle (some c) (some mf) = false := by
  simp [dle, not_le, h]

/-- If a value is not below `m`, it is not below any `mf ≤ m` either
(NaN is below nothing). -/
theorem dlt_false_of_le {x : D} {m mf : ℚ} (h : dlt x (some m) = false) (hle : mf ≤ m) :
    dlt x (some mf) = false := by
  cases x with
  | none => rfl
  | some c =>
    rw [dlt_some_some] at h
    exact dlt_false_of_le' (le_trans hle (not_lt.mp (of_decide_eq_false h)))

/-- If a value is not below `m`, it is strictly above any `mf < m`
(NaN compares below nothing and at-most nothing). -/
theorem dle_false_of_lt {x : D} {m mf : ℚ} (h : dlt x (some m) = false) (hlt : mf < m) :
    dle x (some mf) = false := by
  cases x with
  | none => rfl
  | some c =>
    rw [dlt_some_some] at h
    exact dle_false_of_lt' (lt_of_lt_of_le hlt (not_lt.mp (of_decide_eq_false h)))

/-! The selector loop invariant. -/

theorem step_eq_update {s : SelState} {t : Tuple}
    (h : (feasibleT t && dlt (totalCostT t) s.min_cost) = true) :
    step s t = ⟨totalCostT t, some t⟩ := by
  simp [step, h]

theorem step_eq_self {s : SelState} {t : Tuple}
    (h : (feasibleT t && dlt (totalCostT t) s.min_cost) = false) :
    step s t = s := by
  simp [step, h]

/-- The complete behaviour of the selector fold started at a finite
`min_cost = m`: the final `min_cost` is finite and at most `m`; no
feasible tuple of the list costs strictly below the final `min_cost`;
and either nothing was ever selected and the state is unchanged, or the
final best is a feasible tuple of the list whose cost equals the final
`min_cost`, is strictly below `m`, and every feasible tuple strictly
before it in the list fails `<=` against it (it is strictly more
expensive or has NaN cost). -/
theorem foldl_step_spec (l : List Tuple) (m : ℚ) (b : Option Tuple) :
    ∃ mf bf, List.foldl step ⟨some m, b⟩ l = ⟨some mf, bf⟩ ∧ mf ≤ m ∧
      (∀ t ∈ l, feasibleT t = true → dlt (totalCostT t) (some mf) = false) ∧
      ((bf = b ∧ mf = m) ∨
        ∃ l1 cfg l2, l = l1 ++ cfg :: l2 ∧ bf = some cfg ∧ feasibleT cfg = true ∧
          totalCostT cfg = some mf ∧ mf < m ∧
          ∀ u ∈ l1, feasibleT u = true → dle (totalCostT u) (some mf) = false) := by
  induction l generalizing m b with
  | nil => exact ⟨m, b, rfl, le_refl m, by simp, Or.inl ⟨rfl, rfl⟩⟩
  | cons t rest ih =>
    cases hg : feasibleT t && dlt (totalCostT t) (some m) with
    | false =>
      have hs : step ⟨some m, b⟩ t = ⟨some m, b⟩ := step_eq_self hg
      obtain ⟨mf, bf, hfold, hmf, hall, hdisj⟩ := ih m b
      have hnotlt : feasibleT t = true → dlt (totalCostT t) (some m) = false := by
        intro hfu
        cases hdlt : dlt (totalCostT t) (some m) with
        | false => rfl
        | true => rw [hfu, hdlt] at hg; exact absurd hg (by simp)
      refine ⟨mf, bf, ?_, hmf, ?_, ?_⟩
      · rw [List.foldl_cons, hs]; exact hfold
      · intro u hu hfu
        rcases List.mem_cons.mp hu with rfl | hu'
        · exact dlt_false_of_le (hnotlt hfu) hmf
        · exact hall u hu' hfu
      · rcases hdisj with ⟨hbf, hmfe⟩ | ⟨l1, cfg, l2, hsplit, hbf, hcf, hcc, hlt, hl1⟩
        · exact Or.inl ⟨hbf, hmfe⟩
        · refine Or.inr ⟨t :: l1, cfg, l2, by rw [hsplit, List.cons_append], hbf, hcf, hcc, hlt, ?_⟩
          intro u hu hfu
          rcases List.mem_cons.mp hu with rfl | hu'
          · exact dle_false_of_lt (hnotlt hfu) hlt
          · exact hl1 u hu' hfu
    | true =>
      have hs : step ⟨some m, b⟩ t = ⟨totalCostT t, some t⟩ := step_eq_update hg
      rw [Bool.and_eq_true] at hg
      obtain ⟨hft, hdt⟩ := hg
      obtain ⟨c, hc, hcm⟩ := (dlt_some_iff _ _).mp hdt
      obtain ⟨mf, bf, hfold, hmf, hall, hdisj⟩ := ih c (some t)
      refine ⟨mf, bf, ?_, le_trans hmf (le_of_lt hcm), ?_, ?_⟩
      · rw [List.foldl_cons, hs, hc]; exact hfold
      · intro u hu hfu
        rcases List.mem_cons.mp hu with rfl | hu'
        · rw [hc]; exact dlt_false_of_le' hmf
        · exact hall u hu' hfu
      · rcases hdisj with ⟨hbf, hmfe⟩ | ⟨l1, cfg, l2, hsplit, hbf, hcf, hcc, hlt, hl1⟩
        · refine Or.inr ⟨[], t, rest, rfl, hbf, hft, by rw [hc, hmfe], ?_, by simp⟩
          rw [hmfe]; exact hcm
        · refine Or.inr ⟨t :: l1, cfg, l2, by rw [hsplit, List.cons_append], hbf, hcf, hcc,
            lt_trans hlt hcm, ?_⟩
          intro u hu hfu
          rcases List.mem_cons.mp hu with rfl | hu'
          · rw [hc]; exact dle_false_of_lt' hlt
          · exact hl1 u hu' hfu

/-! Noninterference machinery: componentwise maps that change none of the
fields the evaluator reads commute with the whole selector run. -/

/-- Apply one function per component kind to a tuple. -/
def mapTuple (fa : Amplifier → Amplifier) (fs : Switch → Switch)
    (ft : Attenuator → Attenuator) (fd : PowerDivider → PowerDivider) : Tuple → Tuple
  | (a, s, t, d) => (fa a, fs s, ft t, fd d)

/-- Apply a tuple map to the best-so-far component of a selector state. -/
def mapState (F : Tuple → Tuple) (s : SelState) : SelState :=
  ⟨s.min_cost, s.best.map F⟩

/-- The four component names of a tuple, the only tuple data the
reporter renders. -/
def tupleNames : Tuple → String × String × String × String
  | (a, s, t, d) => (a.name, s.name, t.name, d.name)

theorem step_mapState {F : Tuple → Tuple}
    (hfeas : ∀ t, feasibleT (F t) = feasibleT t)
    (hcost : ∀ t, totalCostT (F t) = totalCostT t)
    (s : SelState) (t : Tuple) :
    step (mapState F s) (F t) = mapState F (step s t) := by
  unfold step
  rw [hfeas, hcost]
  show (if feasibleT t && dlt (totalCostT t) s.min_cost then _ else _) = _
  cases hg : feasibleT t && dlt (totalCostT t) s.min_cost with
  | false => simp [hg]
  | true => simp [hg, mapState]

theorem foldl_step_mapState {F : Tuple → Tuple}
    (hfeas : ∀ t, feasibleT (F t) = feasibleT t)
    (hcost : ∀ t, totalCostT (F t) = totalCostT t) :
    ∀ (l : List Tuple) (s : SelState),
      List.foldl step (mapState F s) (l.map F) = mapState F (List.foldl step s l) := by
  intro l
  induction l with
  | nil => intro s; rfl
  | cons t rest ih =>
    intro s
    rw [List.map_cons, List.foldl_cons, List.foldl_cons, step_mapState hfeas hcost]
    exact ih (step s t)

theorem innerD_map (fa : Amplifier → Amplifier) (fs : Switch → Switch)
    (ft : Attenuator → Attenuator) (fd : PowerDivider → PowerDivider)
    (a : Amplifier) (s : Switch) (t : Attenuator) (dvs : List PowerDivider) :
    innerD (fa a) (fs s) (ft t) (dvs.map fd) = (innerD a s t dvs).map (mapTuple fa fs ft fd) := by
  induction dvs with
  | nil => rfl
  | cons dv rest ih => simp [innerD, ih, mapTuple]

theorem innerT_map (fa : Amplifier → Amplifier) (fs : Switch → Switch)
    (ft : Attenuator → Attenuator) (fd : PowerDivider → PowerDivider)
    (a : Amplifier) (s : Switch) (atts : List Attenuator) (dvs : List PowerDivider) :
    innerT (fa a) (fs s) (atts.map ft) (dvs.map fd) =
      (innerT a s atts dvs).map (mapTuple fa fs ft fd) := by
  induction atts with
  | nil => rfl
  | cons t rest ih => simp [innerT, ih, innerD_map]

theorem innerS_map (fa : Amplifier → Amplifier) (fs : Switch → Switch)
    (ft : Attenuator → Attenuator) (fd : PowerDivider → PowerDivider)
    (a : Amplifier) (sws : List Switch) (atts : List Attenuator) (dvs : List PowerDivider) :
    innerS (fa a) (sws.map fs) (atts.map ft) (dvs.map fd) =
      (innerS a sws atts dvs).map (mapTuple fa fs ft fd) := by
  induction sws with
  | nil => rfl
  | cons s rest ih => simp [innerS, ih, innerT_map]

theorem allTuples_map (fa : Amplifier → Amplifier) (fs : Switch → Switch)
    (ft : Attenuator → Attenuator) (fd : PowerDivider → PowerDivider)
    (amps : List Amplifier) (sws : List Switch) (atts : List Attenuator)
    (dvs : List PowerDivider) :
    allTuples (amps.map fa) (sws.map fs) (atts.map ft) (dvs.map fd) =
      (allTuples amps sws atts dvs).map (mapTuple fa fs ft fd) := by
  induction amps with
  | nil => rfl
  | cons a rest ih => simp [allTuples, ih, innerS_map]

theorem runSelector_map {fa : Amplifier → Amplifier} {fs : Switch → Switch}
    {ft : Attenuator → Attenuator} {fd : PowerDivider → PowerDivider}
    (hfeas : ∀ t, feasibleT (mapTuple fa fs ft fd t) = feasibleT t)
    (hcost : ∀ t, totalCostT (mapTuple fa fs ft fd t) = totalCostT t)
    (amps : List Amplifier) (sws : List Switch) (atts : List Attenuator)
    (dvs : List PowerDivider) :
    runSelector (amps.map fa) (sws.map fs) (atts.map ft) (dvs.map fd) =
      mapState (mapTuple fa fs ft fd) (runSelector amps sws atts dvs) := by
  unfold runSelector
  rw [allTuples_map]
  have h := foldl_step_mapState hfeas hcost (allTuples amps sws atts dvs)
    ⟨maxDouble, none⟩
  simpa [mapState] using h

theorem reportOf_mapState {F : Tuple → Tuple}
    (hn : ∀ t, tupleNames (F t) = tupleNames t) (s : SelState) :
    reportOf (mapState F s) = reportOf s := by
  rcases s with ⟨m, b⟩
  cases b with
  | none => rfl
  | some t =>
    rcases t with ⟨a, sw, att, dv⟩
    rcases ht : F (a, sw, att, dv) with ⟨a2, s2, t2, d2⟩
    have hnames := hn (a, sw, att, dv)
    rw [ht] at hnames
    simp only [tupleNames, Prod.mk.injEq] at hnames
    obtain ⟨h1, h2, h3, h4⟩ := hnames
    simp [reportOf, mapState, ht, h1, h2, h3, h4]

/-! Empty catalogs give an empty Cartesian product. -/

theorem allTuples_amps_nil (sws : List Switch) (atts : List Attenuator)
    (dvs : List PowerDivider) : allTuples [] sws atts dvs = [] := rfl

theorem allTuples_sws_nil (amps : List Amplifier) (atts : List Attenuator)
    (dvs : List PowerDivider) : allTuples amps [] atts dvs = [] := by
  induction amps with
  | nil => rfl
  | cons a rest ih => simp [allTuples, innerS, ih]

theorem innerS_atts_nil (a : Amplifier) (sws : List Switch) (dvs : List PowerDivider) :
    innerS a sws [] dvs = [] := by
  induction sws with
  | nil => rfl
  | cons s rest ih => simp [innerS, innerT, ih]

theorem allTuples_atts_nil (amps : List Amplifier) (sws : List Switch)
    (dvs : List PowerDivider) : allTuples amps sws [] dvs = [] := by
  induction amps with
  | nil => rfl
  | cons a rest ih => simp [allTuples, innerS_atts_nil, ih]

theorem innerT_dvs_nil (a : Amplifier) (s : Switch) (atts : List Attenuator) :
    innerT a s atts [] = [] := by
  induction atts with
  | nil => rfl
  | cons t rest ih => simp [innerT, innerD, ih]

theorem innerS_dvs_nil (a : Amplifier) (sws : List Switch) (atts : List Attenuator) :
    innerS a sws atts [] = [] := by
  induction sws with
  | nil => rfl
  | cons s rest ih => simp [innerS, innerT_dvs_nil, ih]

theorem allTuples_dvs_nil (amps : List Amplifier) (sws : List Switch)
    (atts : List Attenuator) : allTuples amps sws atts [] = [] := by
  induction amps with
  | nil => rfl
  | cons a rest ih => simp [allTuples, innerS_dvs_nil, ih]

/-! Definitions used by the claim statements. -/

/-- The nine feasibility predicates exactly as the specification lists
them in its section 4.2, over the embedded double comparisons. -/
def ninePredicates (amp : Amplifier) (sw : Switch) (att : Attenuator) (dv : PowerDivider) : Prop :=
  dle (max_output_power_1GHz amp att dv) amp.P1dB_1GHz = true ∧
  dle (max_output_power_20GHz amp att dv) amp.P1dB_20GHz = true ∧
  dge sw.gain_1GHz_typ (some (-1)) = true ∧
  dge sw.gain_20GHz_typ (some (-2)) = true ∧
  dge amp.P1dB_1GHz (some 12) = true ∧
  dge amp.P1dB_20GHz (some (mkRat 21 2)) = true ∧
  dlt sw.leakage_1GHz (some (-55)) = true ∧
  dlt sw.leakage_20GHz (some (-20)) = true ∧
  dle (dneg att.gain) att.max_attenuation = true

/-- Overwrite the two (never read) `gain_min` fields with a fixed value. -/
def eraseGainMin (a : Amplifier) : Amplifier :=
  { a with gain_min_1GHz := some 0, gain_min_20GHz := some 0 }

/-- Overwrite the (never read) switch `P1dB_input` field. -/
def eraseSwitchP1dB (s : Switch) : Switch := { s with P1dB_input := some 0 }

/-- Overwrite the (never read) attenuator `P1dB_input` field. -/
def eraseAttenP1dB (t : Attenuator) : Attenuator := { t with P1dB_input := some 0 }

/-- `switch1` with `leakage_1GHz` exactly `-55` (constraint boundary). -/
def switchLeakBoundary : Switch := { switch1 with leakage_1GHz := some (-55) }

/-- `switch1` with `leakage_1GHz = -55.0001`. -/
def switchLeakBelow : Switch := { switch1 with leakage_1GHz := some (mkRat (-550001) 10000) }

/-- `ampA` with NaN cost: feasibility never reads the cost, so its
tuples stay feasible while their total cost is NaN. -/
def ampNaNCost : Amplifier := { ampA with name := "Amp-N", cost := none }

/-- `ampA` with a negative (malformed) cost of `-100`. -/
def ampNegCost : Amplifier := { ampA with name := "Amp-Neg", cost := some (-100) }

/-- `switch2` repriced to `switch1`'s cost, to create an exact cost tie. -/
def switchTie : Switch := { switch2 with cost := some 50 }

/-- C5: for each frequency the derived metrics are computed exactly as
`effective_gain_max_f = amp.gain_max_f + att.gain + div.gain_f`,
`effective_gain_min_f = amp.gain_min_f + att.gain + div.gain_f`,
`max_output_power_f = input_power_dBm + effective_gain_max_f` and
`min_output_power_f = input_power_dBm + effective_gain_min_f`, with
`input_power_dBm` fixed at `0`; no metric takes the switch as an input,
so its insertion gain is not added to any of these sums.  On finite
field values the sums are the exact rational sums. -/
theorem derived_metrics_formulas (amp : Amplifier) (att : Attenuator) (dv : PowerDivider) :
    input_power_dBm = some 0 ∧
    effective_gain_max_1GHz amp att dv = dadd (dadd amp.gain_max_1GHz att.gain) dv.gain_1GHz ∧
    effective_gain_max_20GHz amp att dv = dadd (dadd amp.gain_max_20GHz att.gain) dv.gain_20GHz ∧
    effective_gain_min_1GHz amp att dv = dadd (dadd amp.gain_min_1GHz att.gain) dv.gain_1GHz ∧
    effective_gain_min_20GHz amp att dv = dadd (dadd amp.gain_min_20GHz att.gain) dv.gain_20GHz ∧
    max_output_power_1GHz amp att dv = dadd input_power_dBm (effective_gain_max_1GHz amp att dv) ∧
    max_output_power_20GHz amp att dv = dadd input_power_dBm (effective_gain_max_20GHz amp att dv) ∧
    min_output_power_1GHz amp att dv = dadd input_power_dBm (effective_gain_min_1GHz amp att dv) ∧
    min_output_power_20GHz amp att dv = dadd input_power_dBm (effective_gain_min_20GHz amp att dv) ∧
    (∀ g a2 d2 : ℚ, amp.gain_max_1GHz = some g → att.gain = some a2 → dv.gain_1GHz = some d2 →
      max_output_power_1GHz amp att dv = some (0 + (g + a2 + d2))) ∧
    (∀ g a2 d2 : ℚ, amp.gain_min_20GHz = some g → att.gain = some a2 → dv.gain_20GHz = some d2 →
      min_output_power_20GHz amp att dv = some (0 + (g + a2 + d2))) := by
  refine ⟨rfl, rfl, rfl, rfl, rfl, rfl, rfl, rfl, rfl, ?_, ?_⟩
  · intro g a2 d2 hg ha hd
    simp [max_output_power_1GHz, effective_gain_max_1GHz, input_power_dBm, hg, ha, hd, dadd_some]
  · intro g a2 d2 hg ha hd
    simp [min_output_power_20GHz, effective_gain_min_20GHz, input_power_dBm, hg, ha, hd, dadd_some]

/-- C5 witness: the sum formula evaluated at the reference components
`Amp-A`, `Attenuator-2`, `Divider-1`. -/
theorem derived_metrics_formulas_witness :
    max_output_power_1GHz ampA attenuator2 divider1 = some (0 + (15 + -6 + 0)) :=
  (derived_metrics_formulas ampA attenuator2 divider1).2.2.2.2.2.2.2.2.2.1 15 (-6) 0 rfl rfl rfl

/-- C6: `total_cost` is the sum `amp.cost + sw.cost + att.cost + div.cost`
(exact rational addition on finite values), it is computed by the same
function whatever the feasibility outcome, and feasibility is invariant
under arbitrary replacement of all four cost fields, so cost never
filters a tuple out of evaluation. -/
theorem total_cost_formula_and_independence (amp : Amplifier) (sw : Switch) (att : Attenuator)
    (dv : PowerDivider) (ca cs ct cd : D) :
    totalCost amp sw att dv = dadd (dadd (dadd amp.cost sw.cost) att.cost) dv.cost ∧
    feasible { amp with cost := ca } { sw with cost := cs } { att with cost := ct }
      { dv with cost := cd } = feasible amp sw att dv ∧
    totalCost { amp with cost := ca } { sw with cost := cs } { att with cost := ct }
      { dv with cost := cd } = dadd (dadd (dadd ca cs) ct) cd ∧
    (∀ qa qs qt qd : ℚ, amp.cost = some qa → sw.cost = some qs → att.cost = some qt →
      dv.cost = some qd → totalCost amp sw att dv = some (qa + qs + qt + qd)) := by
  refine ⟨rfl, rfl, rfl, ?_⟩
  intro qa qs qt qd ha hs ht hd
  simp [totalCost, ha, hs, ht, hd, dadd_some]

/-- C6 witness: the reference tuple's cost is `100 + 50 + 0 + 0`. -/
theorem total_cost_formula_and_independence_witness :
    totalCost ampA switch1 attenuator2 divider1 = some (100 + 50 + 0 + 0) :=
  (total_cost_formula_and_independence ampA switch1 attenuator2 divider1
    none none none none).2.2.2 100 50 0 0 rfl rfl rfl rfl

/-- C2: a tuple is feasible iff all nine predicates of the specification
hold, and the two leakage comparisons are strict: with
`sw.leakage_1GHz` exactly `-55` the tuple is infeasible, with
`-55.0001` (all else equal) it is feasible. -/
theorem feasible_iff_nine_predicates :
    (∀ (amp : Amplifier) (sw : Switch) (att : Attenuator) (dv : PowerDivider),
      feasible amp sw att dv = true ↔ ninePredicates amp sw att dv) ∧
    feasible ampA switchLeakBoundary attenuator2 divider1 = false ∧
    feasible ampA switchLeakBelow attenuator2 divider1 = true := by
  refine ⟨?_, by decide, by decide⟩
  intro amp sw att dv
  simp [feasible, onStateOk, offStateOk, attenuatorOk, ninePredicates,
    Bool.and_eq_true, and_assoc]

/-- C2 witness: the reference tuple satisfies the gate, via the
nine-predicate characterisation. -/
theorem feasible_iff_nine_predicates_witness :
    feasible ampA switch1 attenuator2 divider1 = true :=
  (feasible_iff_nine_predicates.1 ampA switch1 attenuator2 divider1).mpr
    ⟨by decide, by decide, by decide, by decide, by decide, by decide, by decide,
      by decide, by decide⟩

/-- C1 counterexample: with a second amplifier identical to `Amp-A` but
with NaN cost, the selector still reports the `Amp-A` tuple, the
NaN-cost tuple is a feasible member of the product, and the reported
tuple's total cost is NOT less-than-or-equal to the NaN total cost:
the claim's universal `<=` comparison fails on this input. -/
theorem selected_not_le_nan_cost :
    (runSelector [ampA, ampNaNCost] [switch1] [attenuator2] [divider1]).best =
      some (ampA, switch1, attenuator2, divider1) ∧
    (ampNaNCost, switch1, attenuator2, divider1) ∈
      allTuples [ampA, ampNaNCost] [switch1] [attenuator2] [divider1] ∧
    feasibleT (ampNaNCost, switch1, attenuator2, divider1) = true ∧
    dle (totalCostT (ampA, switch1, attenuator2, divider1))
      (totalCostT (ampNaNCost, switch1, attenuator2, divider1)) = false := by
  exact ⟨by decide, by decide, by decide, by decide⟩

/-- C1 (amended): whenever the selector reports a best configuration, it
is a feasible member of the Cartesian product, no feasible tuple of the
product has a total cost comparing strictly below it, and its total cost
is less than or equal to the total cost of every other feasible tuple
whose total cost is a (non-NaN) number. -/
theorem selected_is_minimal_cost (amps : List Amplifier) (sws : List Switch)
    (atts : List Attenuator) (dvs : List PowerDivider) (cfg : Tuple)
    (h : (runSelector amps sws atts dvs).best = some cfg) :
    cfg ∈ allTuples amps sws atts dvs ∧ feasibleT cfg = true ∧
    ∀ t ∈ allTuples amps sws atts dvs, feasibleT t = true →
      dlt (totalCostT t) (totalCostT cfg) = false ∧
      ∀ q : ℚ, totalCostT t = some q →
        ∃ qc : ℚ, totalCostT cfg = some qc ∧ qc ≤ q := by
  obtain ⟨mf, bf, hfold, hmf, hall, hdisj⟩ :=
    foldl_step_spec (allTuples amps sws atts dvs) maxDoubleQ none
  have hrun : runSelector amps sws atts dvs = ⟨some mf, bf⟩ := hfold
  rw [hrun] at h
  have hbf : bf = some cfg := h
  rcases hdisj with ⟨hbn, _⟩ | ⟨l1, cfg2, l2, hsplit, hbf2, hcf, hcc, _, _⟩
  · rw [hbn] at hbf; exact absurd hbf (by simp)
  · rw [hbf2] at hbf
    obtain rfl : cfg2 = cfg := Option.some.injEq _ _ ▸ hbf
    refine ⟨?_, hcf, ?_⟩
    · rw [hsplit]; exact List.mem_append_right _ (List.mem_cons_self _ _)
    · intro t ht hft
      have hnot : dlt (totalCostT t) (some mf) = false := hall t ht hft
      constructor
      · rw [hcc]; exact hnot
      · intro q hq
        refine ⟨mf, hcc, ?_⟩
        rw [hq, dlt_some_some] at hnot
        exact not_lt.mp (of_decide_eq_false hnot)

/-- C1 witness: at the reference catalogs, the reported tuple is
feasible and the remaining feasible tuple with `Switch-2` does not
compare strictly below it. -/
theorem selected_is_minimal_cost_witness :
    feasibleT (ampA, switch1, attenuator2, divider1) = true ∧
    dlt (totalCostT (ampA, switch2, attenuator2, divider1))
      (totalCostT (ampA, switch1, attenuator2, divider1)) = false :=
  ⟨(selected_is_minimal_cost refAmplifiers refSwitches refAttenuators refDividers
      (ampA, switch1, attenuator2, divider1) (by decide)).2.1,
   ((selected_is_minimal_cost refAmplifiers refSwitches refAttenuators refDividers
      (ampA, switch1, attenuator2, divider1) (by decide)).2.2
      (ampA, switch2, attenuator2, divider1) (by decide) (by decide)).1⟩

/-- C3: whenever the selector reports a best configuration, it occurs in
the enumeration-ordered product (amplifier outermost, then switch, then
attenuator, then power divider) at a position such that every feasible
tuple strictly before it fails `<=` against its total cost; in
particular no earlier feasible tuple has equal cost, so among feasible
tuples of equal minimal cost the first one in enumeration order wins,
and a later tuple with equal cost never replaces the incumbent. -/
theorem first_tuple_wins_ties (amps : List Amplifier) (sws : List Switch)
    (atts : List Attenuator) (dvs : List PowerDivider) (cfg : Tuple)
    (h : (runSelector amps sws atts dvs).best = some cfg) :
    ∃ l1 l2, allTuples amps sws atts dvs = l1 ++ cfg :: l2 ∧
      ∀ u ∈ l1, feasibleT u = true → dle (totalCostT u) (totalCostT cfg) = false := by
  obtain ⟨mf, bf, hfold, hmf, hall, hdisj⟩ :=
    foldl_step_spec (allTuples amps sws atts dvs) maxDoubleQ none
  have hrun : runSelector amps sws atts dvs = ⟨some mf, bf⟩ := hfold
  rw [hrun] at h
  have hbf : bf = some cfg := h
  rcases hdisj with ⟨hbn, _⟩ | ⟨l1, cfg2, l2, hsplit, hbf2, _, hcc, _, hl1⟩
  · rw [hbn] at hbf; exact absurd hbf (by simp)
  · rw [hbf2] at hbf
    obtain rfl : cfg2 = cfg := Option.some.injEq _ _ ▸ hbf
    refine ⟨l1, l2, hsplit, ?_⟩
    intro u hu hfu
    rw [hcc]
    exact hl1 u hu hfu

/-- C3 witness: with `Switch-2` repriced to cost 50, two feasible tuples
tie at total cost 150; the selector returns the `Switch-1` tuple, which
enumerates first, and every feasible tuple before it in the product
fails `<=` against cost 150. -/
theorem first_tuple_wins_ties_witness :
    (runSelector [ampA] [switch1, switchTie] [attenuator2] [divider1]).best =
      some (ampA, switch1, attenuator2, divider1) ∧
    totalCostT (ampA, switchTie, attenuator2, divider1) =
      totalCostT (ampA, switch1, attenuator2, divider1) ∧
    ∃ l1 l2, allTuples [ampA] [switch1, switchTie] [attenuator2] [divider1] =
        l1 ++ (ampA, switch1, attenuator2, divider1) :: l2 ∧
      ∀ u ∈ l1, feasibleT u = true →
        dle (totalCostT u) (totalCostT (ampA, switch1, attenuator2, divider1)) = false :=
  ⟨by decide, by decide,
   first_tuple_wins_ties [ampA] [switch1, switchTie] [attenuator2] [divider1]
     (ampA, switch1, attenuator2, divider1) (by decide)⟩

/-- C10: because `min_cost` starts at `numeric_limits<double>::max()`
and replacement requires a strict `<`, a configuration is reported iff
some feasible tuple's total cost compares strictly below the maximum
finite double (which a NaN total cost never does); moreover any reported
configuration's own total cost compares strictly below that maximum, so
a feasible tuple whose total cost is NaN or at/above the maximum is
never the selected one. -/
theorem reported_iff_cost_below_max (amps : List Amplifier) (sws : List Switch)
    (atts : List Attenuator) (dvs : List PowerDivider) :
    ((runSelector amps sws atts dvs).best.isSome = true ↔
      ∃ t ∈ allTuples amps sws atts dvs, feasibleT t = true ∧
        dlt (totalCostT t) maxDouble = true) ∧
    ∀ cfg : Tuple, (runSelector amps sws atts dvs).best = some cfg →
      dlt (totalCostT cfg) maxDouble = true := by
  obtain ⟨mf, bf, hfold, hmf, hall, hdisj⟩ :=
    foldl_step_spec (allTuples amps sws atts dvs) maxDoubleQ none
  have hrun : runSelector amps sws atts dvs = ⟨some mf, bf⟩ := hfold
  rw [hrun]
  constructor
  · constructor
    · intro hsome
      rcases hdisj with ⟨hbn, _⟩ | ⟨l1, cfg, l2, hsplit, hbf, hcf, hcc, hlt, _⟩
      · rw [show (SelState.mk (some mf) bf).best = bf from rfl, hbn] at hsome
        exact absurd hsome (by simp)
      · refine ⟨cfg, ?_, hcf, ?_⟩
        · rw [hsplit]; exact List.mem_append_right _ (List.mem_cons_self _ _)
        · rw [hcc]; exact decide_eq_true hlt
    · intro hex
      obtain ⟨t, ht, hft, hdt⟩ := hex
      rcases hdisj with ⟨hbn, hmm⟩ | ⟨l1, cfg, l2, hsplit, hbf, _, _, _, _⟩
      · have hnot : dlt (totalCostT t) (some mf) = false := hall t ht hft
        rw [hmm] at hnot
        rw [show maxDouble = some maxDoubleQ from rfl] at hdt
        rw [hdt] at hnot
        exact absurd hnot (by simp)
      · rw [show (SelState.mk (some mf) bf).best = bf from rfl, hbf]
        rfl
  · intro cfg hcfg
    have hbf : bf = some cfg := hcfg
    rcases hdisj with ⟨hbn, _⟩ | ⟨l1, cfg2, l2, hsplit, hbf2, _, hcc, hlt, _⟩
    · rw [hbn] at hbf; exact absurd hbf (by simp)
    · rw [hbf2] at hbf
      obtain rfl : cfg2 = cfg := Option.some.injEq _ _ ▸ hbf
      rw [hcc]
      exact decide_eq_true hlt

/-- C10 witness: the reported reference tuple's cost (150) compares
strictly below the maximum finite double. -/
theorem reported_iff_cost_below_max_witness :
    dlt (totalCostT (ampA, switch1, attenuator2, divider1)) maxDouble = true :=
  (reported_iff_cost_below_max refAmplifiers refSwitches refAttenuators refDividers).2
    (ampA, switch1, attenuator2, divider1) (by decide)

/-- C4 counterexample: a catalog with a negative (malformed) amplifier
cost does NOT fall through to the "no valid configuration" message: the
feasible tuple is selected and reported with total cost `-50`. -/
theorem negative_cost_still_selected :
    dlt ampNegCost.cost (some 0) = true ∧
    printBestConfiguration [ampNegCost] [switch1] [attenuator2] [divider1] =
      Report.best "Amp-Neg" "Switch-1" "Attenuator-2" "Divider-1" (some (-50)) ∧
    printBestConfiguration [ampNegCost] [switch1] [attenuator2] [divider1] ≠
      Report.noValid := by
  exact ⟨by decide, by decide, by decide⟩

/-- C4 (amended): the search never signals an error — its output is
always exactly one of the two report shapes (a line carrying the four
selected component names with the total cost, or the fixed "No valid
configuration found that meets the specifications." message); if any of
the four catalogs is empty, or if no tuple satisfies all nine
predicates, the fixed message is output.  Malformed numeric attributes
are processed without raising, but do not by themselves force the
message: a feasible tuple with negative cost is still selected. -/
theorem no_error_output_shape (amps : List Amplifier) (sws : List Switch)
    (atts : List Attenuator) (dvs : List PowerDivider) :
    (printBestConfiguration amps sws atts dvs = Report.noValid ∨
      ∃ cfg : Tuple, (runSelector amps sws atts dvs).best = some cfg ∧
        printBestConfiguration amps sws atts dvs =
          Report.best cfg.1.name cfg.2.1.name cfg.2.2.1.name cfg.2.2.2.name
            (runSelector amps sws atts dvs).min_cost) ∧
    ((amps = [] ∨ sws = [] ∨ atts = [] ∨ dvs = []) →
      printBestConfiguration amps sws atts dvs = Report.noValid) ∧
    ((∀ t ∈ allTuples amps sws atts dvs, feasibleT t = false) →
      printBestConfiguration amps sws atts dvs = Report.noValid) := by
  refine ⟨?_, ?_, ?_⟩
  · rcases hb : (runSelector amps sws atts dvs).best with _ | ⟨a, sw, att, dv⟩
    · left
      simp [printBestConfiguration, reportOf, hb]
    · right
      exact ⟨(a, sw, att, dv), rfl, by simp [printBestConfiguration, reportOf, hb]⟩
  · intro hempty
    rcases hempty with rfl | rfl | rfl | rfl
    · simp [printBestConfiguration, runSelector, allTuples_amps_nil, reportOf]
    · simp [printBestConfiguration, runSelector, allTuples_sws_nil, reportOf]
    · simp [printBestConfiguration, runSelector, allTuples_atts_nil, reportOf]
    · simp [printBestConfiguration, runSelector, allTuples_dvs_nil, reportOf]
  · intro hnone
    obtain ⟨mf, bf, hfold, hmf, hall, hdisj⟩ :=
      foldl_step_spec (allTuples amps sws atts dvs) maxDoubleQ none
    have hrun : runSelector amps sws atts dvs = ⟨some mf, bf⟩ := hfold
    rcases hdisj with ⟨hbn, _⟩ | ⟨l1, cfg, l2, hsplit, hbf, hcf, _, _, _⟩
    · rw [printBestConfiguration, hrun, hbn]
      rfl
    · have hmem : cfg ∈ allTuples amps sws atts dvs := by
        rw [hsplit]; exact List.mem_append_right _ (List.mem_cons_self _ _)
      rw [hnone cfg hmem] at hcf
      exact absurd hcf (by simp)

/-- C4 witness: an empty amplifier catalog and an empty switch catalog
each yield the fixed message. -/
theorem no_error_output_shape_witness :
    printBestConfiguration [] refSwitches refAttenuators refDividers = Report.noValid ∧
    printBestConfiguration refAmplifiers [] refAttenuators refDividers = Report.noValid :=
  ⟨(no_error_output_shape [] refSwitches refAttenuators refDividers).2.1 (Or.inl rfl),
   (no_error_output_shape refAmplifiers [] refAttenuators refDividers).2.1
     (Or.inr (Or.inl rfl))⟩

/-- C7: the amplifier `gain_min` fields (hence the `min_output_power`
values derived from them) never influence the result: two amplifier
catalogs that agree after overwriting both `gain_min` fields produce the
same observable output, the same final `min_cost`, and the same
feasibility decision for every tuple of the product, whatever the other
three catalogs are. -/
theorem gain_min_noninterference (amps amps2 : List Amplifier) (sws : List Switch)
    (atts : List Attenuator) (dvs : List PowerDivider)
    (h : amps.map eraseGainMin = amps2.map eraseGainMin) :
    printBestConfiguration amps sws atts dvs = printBestConfiguration amps2 sws atts dvs ∧
    (runSelector amps sws atts dvs).min_cost = (runSelector amps2 sws atts dvs).min_cost ∧
    (allTuples amps sws atts dvs).map feasibleT =
      (allTuples amps2 sws atts dvs).map feasibleT := by
  have hfeas : ∀ t : Tuple, feasibleT (mapTuple eraseGainMin id id id t) = feasibleT t := by
    intro t; rcases t with ⟨a, s, tt, d⟩; rfl
  have hcost : ∀ t : Tuple, totalCostT (mapTuple eraseGainMin id id id t) = totalCostT t := by
    intro t; rcases t with ⟨a, s, tt, d⟩; rfl
  have hnames : ∀ t : Tuple, tupleNames (mapTuple eraseGainMin id id id t) = tupleNames t := by
    intro t; rcases t with ⟨a, s, tt, d⟩; rfl
  have hR1 : runSelector (amps.map eraseGainMin) sws atts dvs =
      mapState (mapTuple eraseGainMin id id id) (runSelector amps sws atts dvs) := by
    have hx := runSelector_map hfeas hcost amps sws atts dvs
    simpa [List.map_id] using hx
  have hR2 : runSelector (amps2.map eraseGainMin) sws atts dvs =
      mapState (mapTuple eraseGainMin id id id) (runSelector amps2 sws atts dvs) := by
    have hx := runSelector_map hfeas hcost amps2 sws atts dvs
    simpa [List.map_id] using hx
  have key : mapState (mapTuple eraseGainMin id id id) (runSelector amps sws atts dvs) =
      mapState (mapTuple eraseGainMin id id id) (runSelector amps2 sws atts dvs) := by
    rw [← hR1, ← hR2, h]
  have hA1 : allTuples (amps.map eraseGainMin) sws atts dvs =
      (allTuples amps sws atts dvs).map (mapTuple eraseGainMin id id id) := by
    have hx := allTuples_map eraseGainMin id id id amps sws atts dvs
    simpa [List.map_id] using hx
  have hA2 : allTuples (amps2.map eraseGainMin) sws atts dvs =
      (allTuples amps2 sws atts dvs).map (mapTuple eraseGainMin id id id) := by
    have hx := allTuples_map eraseGainMin id id id amps2 sws atts dvs
    simpa [List.map_id] using hx
  have hfmap : ∀ l : List Tuple,
      (l.map (mapTuple eraseGainMin id id id)).map feasibleT = l.map feasibleT := by
    intro l
    have hc : feasibleT ∘ mapTuple eraseGainMin id id id = feasibleT := funext hfeas
    rw [List.map_map, hc]
  refine ⟨?_, ?_, ?_⟩
  · calc printBestConfiguration amps sws atts dvs
        = reportOf (mapState (mapTuple eraseGainMin id id id)
            (runSelector amps sws atts dvs)) := (reportOf_mapState hnames _).symm
      _ = reportOf (mapState (mapTuple eraseGainMin id id id)
            (runSelector amps2 sws atts dvs)) := by rw [key]
      _ = printBestConfiguration amps2 sws atts dvs := reportOf_mapState hnames _
  · have hx := congrArg SelState.min_cost key
    simpa [mapState] using hx
  · calc (allTuples amps sws atts dvs).map feasibleT
        = ((allTuples amps sws atts dvs).map (mapTuple eraseGainMin id id id)).map
            feasibleT := (hfmap _).symm
      _ = (allTuples (amps.map eraseGainMin) sws atts dvs).map feasibleT := by rw [hA1]
      _ = (allTuples (amps2.map eraseGainMin) sws atts dvs).map feasibleT := by rw [h]
      _ = ((allTuples amps2 sws atts dvs).map (mapTuple eraseGainMin id id id)).map
            feasibleT := by rw [hA2]
      _ = (allTuples amps2 sws atts dvs).map feasibleT := hfmap _

/-- `ampA` with both `gain_min` fields scrambled (one even to NaN). -/
def ampAGainMinTweak : Amplifier :=
  { ampA with gain_min_1GHz := some 999, gain_min_20GHz := none }

/-- C7 witness: scrambling `Amp-A`'s `gain_min` fields changes neither
the output, nor the final `min_cost`, nor any feasibility decision. -/
theorem gain_min_noninterference_witness :
    printBestConfiguration [ampA, ampB] refSwitches refAttenuators refDividers =
      printBestConfiguration [ampAGainMinTweak, ampB] refSwitches refAttenuators refDividers ∧
    (runSelector [ampA, ampB] refSwitches refAttenuators refDividers).min_cost =
      (runSelector [ampAGainMinTweak, ampB] refSwitches refAttenuators refDividers).min_cost ∧
    (allTuples [ampA, ampB] refSwitches refAttenuators refDividers).map feasibleT =
      (allTuples [ampAGainMinTweak, ampB] refSwitches refAttenuators refDividers).map
        feasibleT :=
  gain_min_noninterference [ampA, ampB] [ampAGainMinTweak, ampB] refSwitches refAttenuators
    refDividers (by decide)

/-- C9: the switch `P1dB_input` field and the attenuator `P1dB_input`
field never influence the result: switch and attenuator catalogs that
agree after overwriting those fields produce the same observable output,
the same final `min_cost`, and the same feasibility decision for every
tuple of the product. -/
theorem p1db_input_noninterference (amps : List Amplifier) (sws sws2 : List Switch)
    (atts atts2 : List Attenuator) (dvs : List PowerDivider)
    (hs : sws.map eraseSwitchP1dB = sws2.map eraseSwitchP1dB)
    (ha : atts.map eraseAttenP1dB = atts2.map eraseAttenP1dB) :
    printBestConfiguration amps sws atts dvs = printBestConfiguration amps sws2 atts2 dvs ∧
    (runSelector amps sws atts dvs).min_cost = (runSelector amps sws2 atts2 dvs).min_cost ∧
    (allTuples amps sws atts dvs).map feasibleT =
      (allTuples amps sws2 atts2 dvs).map feasibleT := by
  have hfeas : ∀ t : Tuple,
      feasibleT (mapTuple id eraseSwitchP1dB eraseAttenP1dB id t) = feasibleT t := by
    intro t; rcases t with ⟨a, s, tt, d⟩; rfl
  have hcost : ∀ t : Tuple,
      totalCostT (mapTuple id eraseSwitchP1dB eraseAttenP1dB id t) = totalCostT t := by
    intro t; rcases t with ⟨a, s, tt, d⟩; rfl
  have hnames : ∀ t : Tuple,
      tupleNames (mapTuple id eraseSwitchP1dB eraseAttenP1dB id t) = tupleNames t := by
    intro t; rcases t with ⟨a, s, tt, d⟩; rfl
  have hR1 : runSelector amps (sws.map eraseSwitchP1dB) (atts.map eraseAttenP1dB) dvs =
      mapState (mapTuple id eraseSwitchP1dB eraseAttenP1dB id)
        (runSelector amps sws atts dvs) := by
    have hx := runSelector_map hfeas hcost amps sws atts dvs
    simpa [List.map_id] using hx
  have hR2 : runSelector amps (sws2.map eraseSwitchP1dB) (atts2.map eraseAttenP1dB) dvs =
      mapState (mapTuple id eraseSwitchP1dB eraseAttenP1dB id)
        (runSelector amps sws2 atts2 dvs) := by
    have hx := runSelector_map hfeas hcost amps sws2 atts2 dvs
    simpa [List.map_id] using hx
  have key : mapState (mapTuple id eraseSwitchP1dB eraseAttenP1dB id)
        (runSelector amps sws atts dvs) =
      mapState (mapTuple id eraseSwitchP1dB eraseAttenP1dB id)
        (runSelector amps sws2 atts2 dvs) := by
    rw [← hR1, ← hR2, hs, ha]
  have hA1 : allTuples amps (sws.map eraseSwitchP1dB) (atts.map eraseAttenP1dB) dvs =
      (allTuples amps sws atts dvs).map (mapTuple id eraseSwitchP1dB eraseAttenP1dB id) := by
    have hx := allTuples_map id eraseSwitchP1dB eraseAttenP1dB id amps sws atts dvs
    simpa [List.map_id] using hx
  have hA2 : allTuples amps (sws2.map eraseSwitchP1dB) (atts2.map eraseAttenP1dB) dvs =
      (allTuples amps sws2 atts2 dvs).map (mapTuple id eraseSwitchP1dB eraseAttenP1dB id) := by
    have hx := allTuples_map id eraseSwitchP1dB eraseAttenP1dB id amps sws2 atts2 dvs
    simpa [List.map_id] using hx
  have hfmap : ∀ l : List Tuple,
      (l.map (mapTuple id eraseSwitchP1dB eraseAttenP1dB id)).map feasibleT =
        l.map feasibleT := by
    intro l
    have hc : feasibleT ∘ mapTuple id eraseSwitchP1dB eraseAttenP1dB id = feasibleT :=
      funext hfeas
    rw [List.map_map, hc]
  refine ⟨?_, ?_, ?_⟩
  · calc printBestConfiguration amps sws atts dvs
        = reportOf (mapState (mapTuple id eraseSwitchP1dB eraseAttenP1dB id)
            (runSelector amps sws atts dvs)) := (reportOf_mapState hnames _).symm
      _ = reportOf (mapState (mapTuple id eraseSwitchP1dB eraseAttenP1dB id)
            (runSelector amps sws2 atts2 dvs)) := by rw [key]
      _ = printBestConfiguration amps sws2 atts2 dvs := reportOf_mapState hnames _
  · have hx := congrArg SelState.min_cost key
    simpa [mapState] using hx
  · calc (allTuples amps sws atts dvs).map feasibleT
        = ((allTuples amps sws atts dvs).map
            (mapTuple id eraseSwitchP1dB eraseAttenP1dB id)).map feasibleT := (hfmap _).symm
      _ = (allTuples amps (sws.map eraseSwitchP1dB) (atts.map eraseAttenP1dB) dvs).map
            feasibleT := by rw [hA1]
      _ = (allTuples amps (sws2.map eraseSwitchP1dB) (atts2.map eraseAttenP1dB) dvs).map
            feasibleT := by rw [hs, ha]
      _ = ((allTuples amps sws2 atts2 dvs).map
            (mapTuple id eraseSwitchP1dB eraseAttenP1dB id)).map feasibleT := by rw [hA2]
      _ = (allTuples amps sws2 atts2 dvs).map feasibleT := hfmap _

/-- `switch1` with its `P1dB_input` blanked to NaN. -/
def switch1P1dBTweak : Switch := { switch1 with P1dB_input := none }

/-- `attenuator2` with a scrambled `P1dB_input`. -/
def attenuator2P1dBTweak : Attenuator := { attenuator2 with P1dB_input := some (-77) }

/-- C9 witness: scrambling `Switch-1`'s and `Attenuator-2`'s
`P1dB_input` fields changes nothing observable. -/
theorem p1db_input_noninterference_witness :
    printBestConfiguration refAmplifiers [switch1, switch2] [attenuator1, attenuator2]
        refDividers =
      printBestConfiguration refAmplifiers [switch1P1dBTweak, switch2]
        [attenuator1, attenuator2P1dBTweak] refDividers ∧
    (runSelector refAmplifiers [switch1, switch2] [attenuator1, attenuator2]
        refDividers).min_cost =
      (runSelector refAmplifiers [switch1P1dBTweak, switch2]
        [attenuator1, attenuator2P1dBTweak] refDividers).min_cost ∧
    (allTuples refAmplifiers [switch1, switch2] [attenuator1, attenuator2]
        refDividers).map feasibleT =
      (allTuples refAmplifiers [switch1P1dBTweak, switch2]
        [attenuator1, attenuator2P1dBTweak] refDividers).map feasibleT :=
  p1db_input_noninterference refAmplifiers [switch1, switch2] [switch1P1dBTweak, switch2]
    [attenuator1, attenuator2] [attenuator1, attenuator2P1dBTweak] refDividers
    (by decide) (by decide)

/-- C8: with the catalogs hardcoded in `main` and input power 0 dBm, the
selector picks the `Amp-A`, `Switch-1`, `Attenuator-2`, `Divider-1`
tuple at total cost 150 out of the 16 combinations, no feasible tuple of
the product costs strictly less, and the reported line carries exactly
those four names and that total cost (the golden regression output). -/
theorem reference_scenario_golden :
    (allTuples refAmplifiers refSwitches refAttenuators refDividers).length = 16 ∧
    (runSelector refAmplifiers refSwitches refAttenuators refDividers).best =
      some (ampA, switch1, attenuator2, divider1) ∧
    (runSelector refAmplifiers refSwitches refAttenuators refDividers).min_cost = some 150 ∧
    printBestConfiguration refAmplifiers refSwitches refAttenuators refDividers =
      Report.best "Amp-A" "Switch-1" "Attenuator-2" "Divider-1" (some 150) ∧
    feasibleT (ampA, switch1, attenuator2, divider1) = true ∧
    totalCostT (ampA, switch1, attenuator2, divider1) = some 150 ∧
    (allTuples refAmplifiers refSwitches refAttenuators refDividers).all
      (fun t => !feasibleT t || !dlt (totalCostT t) (some 150)) = true := by
  exact ⟨by decide, by decide, by decide, by decide, by decide, by decide, by decide⟩

end SignalDist
